import Mathlib

/-!
Shallow embedding of `src/kernel/ip_set_bitmap_port.c` (the `bitmap:port`
ip-set type): the non-timed bitmap variant, the timed variant with its
garbage collector, the userspace add/del/test request handlers (`uadt`),
the kernel-path handlers (`kadt`), the listing scan and the set-equality
predicates.

Machine integers are modelled as `Nat` (ports are 16-bit and all arithmetic
performed on them stays far below any overflow boundary: the `u32 port`
loop counter exists in the C source precisely so that `port++` cannot wrap
at 65535, and the `Nat` model reflects that non-wrapping behaviour).
Return codes are modelled as `Int`, `0` for success and minus an error
constant for failure, exactly as the C functions return them.

The helper header `ip_set_timeout.h` (included with `IP_SET_BITMAP_TIMEOUT`
defined) and the `ip_set.h` error constants are not part of the sources of
this repository; the definitions below that depend on them are modelled
from the spec and carry a doc comment saying so.
-/

/-- Error code for a malformed request (`IPSET_ERR_PROTOCOL`).
Modelled from the spec: the error taxonomy constants come from a header
outside this repository; only their distinctness matters here. -/
def IPSET_ERR_PROTOCOL : Int := 129

/-- Error code for add-on-present / delete-on-absent (`IPSET_ERR_EXIST`).
Modelled from the spec (header constant outside this repository). -/
def IPSET_ERR_EXIST : Int := 135

/-- Error code for a timeout attribute supplied where unsupported
(`IPSET_ERR_TIMEOUT`). Modelled from the spec (header constant outside
this repository). -/
def IPSET_ERR_TIMEOUT : Int := 139

/-- Error code for a port outside the configured range
(`IPSET_ERR_BITMAP_RANGE`). Modelled from the spec (header constant
outside this repository). -/
def IPSET_ERR_BITMAP_RANGE : Int := 160

/-- Sentinel slot value of the timed store (`IPSET_ELEM_UNSET`): absent. -/
def IPSET_ELEM_UNSET : Nat := 0

/-- The add/del/test discriminator (`enum ipset_adt`, restricted to the
three values the variant handlers dispatch on). -/
inductive IpsetAdt where
  | test
  | add
  | del
deriving DecidableEq

/-- A decoded add/del/test control request: the logical attribute content
after successful parsing (`IPSET_ATTR_PORT`, optional `IPSET_ATTR_PORT_TO`,
optional `IPSET_ATTR_TIMEOUT`).  `IPSET_ATTR_LINENO` is an opaque
pass-through for the external caller and is not modelled. -/
structure AdtRequest where
  port : Nat
  port_to : Option Nat
  timeout : Option Nat

/-- Modelled from the spec: `ip_set_eexist` lives in `ip_set.h`, outside
this repository.  The spec's partial-failure policy says an
`AlreadyExists` result on a range member is swallowed unless the caller
explicitly disallows it; `fexist` is that caller flag (true = tolerate
duplicates), and the helper reports whether a return code is a tolerated
duplicate error. -/
def ip_set_eexist (ret : Int) (fexist : Bool) : Bool :=
  (ret == -IPSET_ERR_EXIST) && fexist

/-- The `struct bitmap_port` descriptor: presence bits plus inclusive port
bounds.  `memsize` is the byte count of the allocation and plays no role
in the modelled operations. -/
structure BitmapPort where
  members : List Bool
  first_port : Nat
  last_port : Nat
deriving DecidableEq

/-- C `bitmap_port_test`: read the presence bit of slot `id`
(out-of-allocation reads cannot occur in the C driver; the model returns
false there). -/
def bitmap_port_test (map : BitmapPort) (id : Nat) : Bool :=
  map.members.getD id false

/-- C `bitmap_port_add`: `test_and_set_bit`; the bit is written
unconditionally and the old value decides the return code. -/
def bitmap_port_add (map : BitmapPort) (id : Nat) : Int × BitmapPort :=
  if bitmap_port_test map id then
    (-IPSET_ERR_EXIST, { map with members := map.members.set id true })
  else
    (0, { map with members := map.members.set id true })

/-- C `bitmap_port_del`: `test_and_clear_bit`; the bit is cleared
unconditionally and the old value decides the return code. -/
def bitmap_port_del (map : BitmapPort) (id : Nat) : Int × BitmapPort :=
  if bitmap_port_test map id then
    (0, { map with members := map.members.set id false })
  else
    (-IPSET_ERR_EXIST, { map with members := map.members.set id false })

/-- C `bitmap_port_kadt` after the external framework has already
extracted the port from the packet: bounds check, then dispatch. -/
def bitmap_port_kadt (map : BitmapPort) (adt : IpsetAdt) (port : Nat) :
    Int × BitmapPort :=
  if port < map.first_port ∨ map.last_port < port then
    (-IPSET_ERR_BITMAP_RANGE, map)
  else
    match adt with
    | IpsetAdt.test =>
        ((if bitmap_port_test map (port - map.first_port) then 1 else 0), map)
    | IpsetAdt.add => bitmap_port_add map (port - map.first_port)
    | IpsetAdt.del => bitmap_port_del map (port - map.first_port)

/-- The shared shape of the `for (; port <= port_to; port++)` loop of both
`uadt` handlers: apply `step` to each port in order; a nonzero return code
that `ip_set_eexist` does not tolerate aborts the loop at once (the
partial mutation of the failing member stays committed, later members are
never visited); a tolerated code is rewritten to `0`. -/
def adt_fold (step : α → Nat → Int × α) (fexist : Bool) :
    α → List Nat → Int × α
  | st, [] => (0, st)
  | st, p :: ps =>
      let r := step st p
      if r.1 ≠ 0 ∧ ip_set_eexist r.1 fexist = false then r
      else adt_fold step fexist r.2 ps

/-- The per-port body of the non-timed `uadt` loop:
`adt == IPSET_ADD ? bitmap_port_add(map, id) : bitmap_port_del(map, id)`
with `id = port - map->first_port`. -/
def bitmap_port_adt_step (adt : IpsetAdt) (m : BitmapPort) (p : Nat) :
    Int × BitmapPort :=
  if adt = IpsetAdt.add then bitmap_port_add m (p - m.first_port)
  else bitmap_port_del m (p - m.first_port)

/-- C `bitmap_port_uadt` (non-timed variant), starting after successful
attribute parsing: bounds check on `port`, rejection of any timeout
attribute, early return for `IPSET_TEST`, endpoint swap with re-check of
the swapped low endpoint, check of the high endpoint, then the loop.
The C checks `port_to > map->last_port` once after the optional swap; the
model repeats that check in each branch of the swap decision, which is
equivalent. -/
def bitmap_port_uadt (map : BitmapPort) (adt : IpsetAdt) (req : AdtRequest)
    (fexist : Bool) : Int × BitmapPort :=
  if req.port < map.first_port ∨ map.last_port < req.port then
    (-IPSET_ERR_BITMAP_RANGE, map)
  else if req.timeout.isSome then
    (-IPSET_ERR_TIMEOUT, map)
  else if adt = IpsetAdt.test then
    ((if bitmap_port_test map (req.port - map.first_port) then 1 else 0), map)
  else
    match req.port_to with
    | some pt =>
        if pt < req.port then
          if pt < map.first_port then (-IPSET_ERR_BITMAP_RANGE, map)
          else if map.last_port < req.port then (-IPSET_ERR_BITMAP_RANGE, map)
          else adt_fold (bitmap_port_adt_step adt) fexist map
                 (List.range' pt (req.port + 1 - pt))
        else
          if map.last_port < pt then (-IPSET_ERR_BITMAP_RANGE, map)
          else adt_fold (bitmap_port_adt_step adt) fexist map
                 (List.range' req.port (pt + 1 - req.port))
    | none =>
        if map.last_port < req.port then (-IPSET_ERR_BITMAP_RANGE, map)
        else adt_fold (bitmap_port_adt_step adt) fexist map [req.port]

/-- C `bitmap_port_same_set`: equality of the two non-timed descriptors is
equality of the port bounds. -/
def bitmap_port_same_set (x y : BitmapPort) : Bool :=
  x.first_port == y.first_port && x.last_port == y.last_port

/-- The scan loop of C `bitmap_port_list` for an uninterrupted pass (the
transport buffer never fills, so `ipset_nest_start` never fails): walk the
slots from `cursor` up to `last_port - first_port`, emitting the port of
every set bit. -/
def bitmap_port_list_scan (map : BitmapPort) (cursor : Nat) : List Nat :=
  if cursor ≤ map.last_port - map.first_port then
    (if bitmap_port_test map cursor then [map.first_port + cursor] else [])
      ++ bitmap_port_list_scan map (cursor + 1)
  else []
termination_by map.last_port - map.first_port + 1 - cursor

/-- C `bitmap_port_list`, uninterrupted full pass from `cursor`: the
emitted ports together with the final value of the cursor `cb->args[2]`,
which the function resets to `0` when the scan reaches the end. -/
def bitmap_port_list (map : BitmapPort) (cursor : Nat) : List Nat × Nat :=
  (bitmap_port_list_scan map cursor, 0)

/-- The `struct bitmap_port_timeout` descriptor: one expiry word per slot,
inclusive port bounds, and the default timeout parameter.  The garbage
collection timer itself is scheduling state and is not modelled; its per
tick body is `bitmap_port_gc` below. -/
structure BitmapPortTimeout where
  members : List Nat
  first_port : Nat
  last_port : Nat
  timeout : Nat
deriving DecidableEq

/-- Modelled from the spec: `ip_set_timeout_test` lives in
`ip_set_timeout.h`, outside this repository.  The spec fixes lazy expiry
as the documented semantics: a timed slot reads as present exactly when it
holds any non-sentinel value, expiry checking being delegated entirely to
the sweeper. -/
def ip_set_timeout_test (t : Nat) : Bool :=
  t ≠ IPSET_ELEM_UNSET

/-- Modelled from the spec: `ip_set_timeout_set` lives in
`ip_set_timeout.h`, outside this repository.  On success an add writes
`now + timeout`, the absolute expiry instant on the monotonic clock. -/
def ip_set_timeout_set (now timeout : Nat) : Nat :=
  now + timeout

/-- Modelled from the spec: `ip_set_timeout_expired` lives in
`ip_set_timeout.h`, outside this repository.  The sweeper clears a slot
holding a non-sentinel value whose expiry instant is at or before now. -/
def ip_set_timeout_expired (now t : Nat) : Bool :=
  t ≠ IPSET_ELEM_UNSET ∧ t ≤ now

/-- Modelled from the spec: `ip_set_timeout_get` lives in
`ip_set_timeout.h`, outside this repository.  The listing reports the
remaining timeout of a slot, the distance from now to its expiry
instant. -/
def ip_set_timeout_get (now t : Nat) : Nat :=
  t - now

/-- C `bitmap_port_timeout_test`: a timed slot is present when it holds a
non-sentinel value (lazy expiry, see `ip_set_timeout_test`). -/
def bitmap_port_timeout_test (map : BitmapPortTimeout) (id : Nat) : Bool :=
  ip_set_timeout_test (map.members.getD id 0)

/-- C `bitmap_port_timeout_add`: fail with `IPSET_ERR_EXIST` when the slot
tests present (before any write), otherwise write the new expiry
instant. -/
def bitmap_port_timeout_add (map : BitmapPortTimeout) (id : Nat)
    (timeout now : Nat) : Int × BitmapPortTimeout :=
  if bitmap_port_timeout_test map id then
    (-IPSET_ERR_EXIST, map)
  else
    (0, { map with
          members := map.members.set id (ip_set_timeout_set now timeout) })

/-- C `bitmap_port_timeout_del`: the return code records whether the slot
tested present, and the slot is reset to the sentinel unconditionally. -/
def bitmap_port_timeout_del (map : BitmapPortTimeout) (id : Nat) :
    Int × BitmapPortTimeout :=
  ((if bitmap_port_timeout_test map id then 0 else -IPSET_ERR_EXIST),
   { map with members := map.members.set id IPSET_ELEM_UNSET })

/-- C `bitmap_port_timeout_kadt` after the external framework has
extracted the port: bounds check, then dispatch; an add from the kernel
path always uses the set's default timeout. -/
def bitmap_port_timeout_kadt (map : BitmapPortTimeout) (adt : IpsetAdt)
    (port : Nat) (now : Nat) : Int × BitmapPortTimeout :=
  if port < map.first_port ∨ map.last_port < port then
    (-IPSET_ERR_BITMAP_RANGE, map)
  else
    match adt with
    | IpsetAdt.test =>
        ((if bitmap_port_timeout_test map (port - map.first_port)
          then 1 else 0), map)
    | IpsetAdt.add =>
        bitmap_port_timeout_add map (port - map.first_port) map.timeout now
    | IpsetAdt.del => bitmap_port_timeout_del map (port - map.first_port)

/-- The per-port body of the timed `uadt` loop:
`adt == IPSET_ADD ? bitmap_port_timeout_add(map, id, timeout)
                  : bitmap_port_timeout_del(map, id)`. -/
def bitmap_port_timeout_adt_step (adt : IpsetAdt) (timeout now : Nat)
    (m : BitmapPortTimeout) (p : Nat) : Int × BitmapPortTimeout :=
  if adt = IpsetAdt.add then
    bitmap_port_timeout_add m (p - m.first_port) timeout now
  else bitmap_port_timeout_del m (p - m.first_port)

/-- C `bitmap_port_timeout_uadt`, starting after successful attribute
parsing: bounds check on `port`, early return for `IPSET_TEST`, endpoint
swap with re-check of the swapped low endpoint, check of the high
endpoint, resolution of the timeout (the attribute value when supplied,
the set default otherwise), then the loop.  A timeout attribute is never
rejected by this handler.  As in the non-timed model, the single
`port_to > map->last_port` check of the C source is repeated in each
branch of the swap decision, which is equivalent. -/
def bitmap_port_timeout_uadt (map : BitmapPortTimeout) (adt : IpsetAdt)
    (req : AdtRequest) (fexist : Bool) (now : Nat) :
    Int × BitmapPortTimeout :=
  if req.port < map.first_port ∨ map.last_port < req.port then
    (-IPSET_ERR_BITMAP_RANGE, map)
  else if adt = IpsetAdt.test then
    ((if bitmap_port_timeout_test map (req.port - map.first_port)
      then 1 else 0), map)
  else
    match req.port_to with
    | some pt =>
        if pt < req.port then
          if pt < map.first_port then (-IPSET_ERR_BITMAP_RANGE, map)
          else if map.last_port < req.port then (-IPSET_ERR_BITMAP_RANGE, map)
          else adt_fold
                 (bitmap_port_timeout_adt_step adt
                   (req.timeout.getD map.timeout) now) fexist map
                 (List.range' pt (req.port + 1 - pt))
        else
          if map.last_port < pt then (-IPSET_ERR_BITMAP_RANGE, map)
          else adt_fold
                 (bitmap_port_timeout_adt_step adt
                   (req.timeout.getD map.timeout) now) fexist map
                 (List.range' req.port (pt + 1 - req.port))
    | none =>
        if map.last_port < req.port then (-IPSET_ERR_BITMAP_RANGE, map)
        else adt_fold
               (bitmap_port_timeout_adt_step adt
                 (req.timeout.getD map.timeout) now) fexist map [req.port]

/-- C `bitmap_port_timeout_same_set`: equality of two timed descriptors is
equality of the port bounds and of the timeout parameter. -/
def bitmap_port_timeout_same_set (x y : BitmapPortTimeout) : Bool :=
  x.first_port == y.first_port && x.last_port == y.last_port &&
    x.timeout == y.timeout

/-- The body of one C `bitmap_port_gc` tick: scan every slot index from
`0` to `last_port - first_port` and reset the expired ones to the
sentinel.  Timer rescheduling is scheduling state and is not modelled. -/
def bitmap_port_gc (map : BitmapPortTimeout) (now : Nat) :
    BitmapPortTimeout :=
  { map with
    members :=
      (List.range' 0 (map.last_port - map.first_port + 1)).foldl
        (fun tbl id =>
          if ip_set_timeout_expired now (tbl.getD id 0) then
            tbl.set id IPSET_ELEM_UNSET
          else tbl)
        map.members }

/-- The scan loop of C `bitmap_port_timeout_list` for an uninterrupted
pass: walk the slots from `cursor` up to `last_port - first_port`,
emitting the port and the remaining timeout of every present slot. -/
def bitmap_port_timeout_list_scan (map : BitmapPortTimeout)
    (now cursor : Nat) : List (Nat × Nat) :=
  if cursor ≤ map.last_port - map.first_port then
    (if bitmap_port_timeout_test map cursor then
       [(map.first_port + cursor,
         ip_set_timeout_get now (map.members.getD cursor 0))]
     else [])
      ++ bitmap_port_timeout_list_scan map now (cursor + 1)
  else []
termination_by map.last_port - map.first_port + 1 - cursor

/-- C `bitmap_port_timeout_list`, uninterrupted full pass from `cursor`:
the emitted entries together with the final cursor value, reset to `0`
when the scan reaches the end. -/
def bitmap_port_timeout_list (map : BitmapPortTimeout) (now cursor : Nat) :
    List (Nat × Nat) × Nat :=
  (bitmap_port_timeout_list_scan map now cursor, 0)

/-- Modelled from the spec's words, for the refinement claim about range
adds: the post-state of issuing a single-port add control request
sequentially for each port of `[lo, hi]`, with `AlreadyExists` errors
swallowed (duplicate tolerance on), keeping the store each request
returns. -/
def add_seq_spec (m : BitmapPort) (lo hi : Nat) : BitmapPort :=
  (List.range' lo (hi + 1 - lo)).foldl
    (fun st q => (bitmap_port_uadt st IpsetAdt.add ⟨q, none, none⟩ true).2) m

/-- Reading back through a `List.set`: position `j` holds the written
value exactly when `j` is the written, in-bounds position. -/
theorem list_getD_set {α : Type _} (l : List α) (i j : Nat) (a d : α) :
    (l.set i a).getD j d = if i = j ∧ j < l.length then a else l.getD j d := by
  simp only [List.getD_eq_getElem?_getD, List.getElem?_set]
  by_cases hij : i = j
  · subst hij
    by_cases hl : i < l.length
    · simp [hl]
    · simp [hl, List.getElem?_eq_none (Nat.le_of_not_lt hl)]
  · simp [hij]

/-- Writing the value a position already holds leaves the list unchanged
(also when the position is past the end, where `set` is a no-op). -/
theorem list_set_getD_self {α : Type _} (l : List α) (i : Nat) (a d : α)
    (h : l.getD i d = a) : l.set i a = l := by
  induction l generalizing i with
  | nil => rfl
  | cons x xs ih =>
      cases i with
      | zero =>
          simp only [List.getD_cons_zero] at h
          simp [h]
      | succ n =>
          simp only [List.getD_cons_succ] at h
          simp [ih n h]

/-- Unfolding equation of `adt_fold` on a nonempty port list. -/
theorem adt_fold_cons {α : Type _} (step : α → Nat → Int × α) (fexist : Bool)
    (st : α) (p : Nat) (ps : List Nat) :
    adt_fold step fexist st (p :: ps) =
      if (step st p).1 ≠ 0 ∧ ip_set_eexist (step st p).1 fexist = false then
        step st p
      else adt_fold step fexist (step st p).2 ps := rfl

/-- A loop whose body only ever reports success or `IPSET_ERR_EXIST`
itself only ever reports success or `IPSET_ERR_EXIST`. -/
theorem adt_fold_code {α : Type _} (step : α → Nat → Int × α) (fexist : Bool)
    (hstep : ∀ st p, (step st p).1 = 0 ∨ (step st p).1 = -IPSET_ERR_EXIST) :
    ∀ (ps : List Nat) (st : α),
      (adt_fold step fexist st ps).1 = 0 ∨
        (adt_fold step fexist st ps).1 = -IPSET_ERR_EXIST
  | [], _ => Or.inl rfl
  | p :: ps, st => by
      rw [adt_fold_cons]
      split_ifs with h
      · exact hstep st p
      · exact adt_fold_code step fexist hstep ps _

/-- With the duplicate-tolerance flag set, a loop whose body only ever
fails with `IPSET_ERR_EXIST` never aborts: it reports success and its
final state is the plain left fold of the body's state component. -/
theorem adt_fold_swallow {α : Type _} (step : α → Nat → Int × α)
    (hstep : ∀ st p, (step st p).1 = 0 ∨ (step st p).1 = -IPSET_ERR_EXIST) :
    ∀ (ps : List Nat) (st : α),
      adt_fold step true st ps =
        (0, ps.foldl (fun st p => (step st p).2) st)
  | [], _ => rfl
  | p :: ps, st => by
      rw [adt_fold_cons]
      have hno : ¬((step st p).1 ≠ 0 ∧
          ip_set_eexist (step st p).1 true = false) := by
        rcases hstep st p with h | h
        · simp [h]
        · simp [h, ip_set_eexist]
      rw [if_neg hno, List.foldl_cons]
      exact adt_fold_swallow step hstep ps _

/-- If the loop completes the first half of a port list with success, the
whole run continues into the second half from the reached state. -/
theorem adt_fold_append_ok {α : Type _} (step : α → Nat → Int × α)
    (fexist : Bool) :
    ∀ (ps1 ps2 : List Nat) (st st1 : α),
      adt_fold step fexist st ps1 = (0, st1) →
      adt_fold step fexist st (ps1 ++ ps2) = adt_fold step fexist st1 ps2
  | [], _, st, st1, h => by
      obtain ⟨rfl⟩ : st = st1 := congrArg Prod.snd h
      rfl
  | p :: ps1, ps2, st, st1, h => by
      rw [adt_fold_cons] at h
      rw [List.cons_append, adt_fold_cons]
      split_ifs at h ⊢ with hc
      · exact absurd (congrArg Prod.fst h) hc.1
      · exact adt_fold_append_ok step fexist ps1 ps2 _ st1 h

/-- If the loop aborts inside the first half of a port list, the second
half is never visited: the whole run returns the aborted result. -/
theorem adt_fold_append_abort {α : Type _} (step : α → Nat → Int × α)
    (fexist : Bool) :
    ∀ (ps1 ps2 : List Nat) (st : α),
      (adt_fold step fexist st ps1).1 ≠ 0 →
      adt_fold step fexist st (ps1 ++ ps2) = adt_fold step fexist st ps1
  | [], _, st, h => absurd rfl h
  | p :: ps1, ps2, st, h => by
      rw [adt_fold_cons] at h ⊢
      rw [List.cons_append, adt_fold_cons]
      split_ifs at h ⊢ with hc
      · rfl
      · exact adt_fold_append_abort step fexist ps1 ps2 _ h

/-- Any invariant preserved by the loop body is preserved by the loop,
whether it completes or aborts. -/
theorem adt_fold_inv {α : Type _} (step : α → Nat → Int × α) (fexist : Bool)
    (Inv : α → Prop) (hstep : ∀ st p, Inv st → Inv (step st p).2) :
    ∀ (ps : List Nat) (st : α), Inv st → Inv (adt_fold step fexist st ps).2
  | [], _, h => h
  | p :: ps, st, h => by
      rw [adt_fold_cons]
      split_ifs with hc
      · exact hstep st p h
      · exact adt_fold_inv step fexist Inv hstep ps _ (hstep st p h)

/-- Any invariant preserved by a fold body is preserved by `List.foldl`. -/
theorem foldl_inv {α β : Type _} (f : α → β → α) (Inv : α → Prop)
    (hstep : ∀ st x, Inv st → Inv (f st x)) :
    ∀ (xs : List β) (st : α), Inv st → Inv (xs.foldl f st)
  | [], _, h => h
  | x :: xs, st, h => foldl_inv f Inv hstep xs (f st x) (hstep st x h)

/-- The non-timed loop body only ever reports success or
`IPSET_ERR_EXIST`. -/
theorem bitmap_port_adt_step_code (adt : IpsetAdt) (m : BitmapPort)
    (p : Nat) :
    (bitmap_port_adt_step adt m p).1 = 0 ∨
      (bitmap_port_adt_step adt m p).1 = -IPSET_ERR_EXIST := by
  unfold bitmap_port_adt_step bitmap_port_add bitmap_port_del
  split_ifs <;> simp

/-- The non-timed loop body never changes the configured bounds. -/
theorem bitmap_port_adt_step_bounds (adt : IpsetAdt) (m : BitmapPort)
    (p : Nat) :
    (bitmap_port_adt_step adt m p).2.first_port = m.first_port ∧
      (bitmap_port_adt_step adt m p).2.last_port = m.last_port := by
  unfold bitmap_port_adt_step bitmap_port_add bitmap_port_del
  split_ifs <;> exact ⟨rfl, rfl⟩

/-- The timed loop body only ever reports success or `IPSET_ERR_EXIST`. -/
theorem bitmap_port_timeout_adt_step_code (adt : IpsetAdt)
    (timeout now : Nat) (m : BitmapPortTimeout) (p : Nat) :
    (bitmap_port_timeout_adt_step adt timeout now m p).1 = 0 ∨
      (bitmap_port_timeout_adt_step adt timeout now m p).1 =
        -IPSET_ERR_EXIST := by
  unfold bitmap_port_timeout_adt_step bitmap_port_timeout_add
    bitmap_port_timeout_del
  split_ifs <;> simp

/-- The timed loop body never changes the configured bounds or the
default timeout. -/
theorem bitmap_port_timeout_adt_step_bounds (adt : IpsetAdt)
    (timeout now : Nat) (m : BitmapPortTimeout) (p : Nat) :
    (bitmap_port_timeout_adt_step adt timeout now m p).2.first_port =
        m.first_port ∧
      (bitmap_port_timeout_adt_step adt timeout now m p).2.last_port =
        m.last_port ∧
      (bitmap_port_timeout_adt_step adt timeout now m p).2.timeout =
        m.timeout := by
  unfold bitmap_port_timeout_adt_step bitmap_port_timeout_add
    bitmap_port_timeout_del
  split_ifs <;> exact ⟨rfl, rfl, rfl⟩

/-- The listing scan of the non-timed store is the in-order filter of the
slot indices still ahead of the cursor, mapped back to port numbers. -/
theorem bitmap_port_list_scan_eq (m : BitmapPort) :
    ∀ (n cursor : Nat), m.last_port - m.first_port + 1 = cursor + n →
      bitmap_port_list_scan m cursor =
        ((List.range' cursor n).filter
            (fun id => bitmap_port_test m id)).map
          (fun id => m.first_port + id)
  | 0, cursor, h => by
      rw [bitmap_port_list_scan, if_neg (by omega)]
      simp
  | n + 1, cursor, h => by
      rw [bitmap_port_list_scan, if_pos (by omega : cursor ≤ m.last_port - m.first_port)]
      rw [List.range'_succ, List.filter_cons,
        bitmap_port_list_scan_eq m n (cursor + 1) (by omega)]
      by_cases ht : bitmap_port_test m cursor
      · simp [ht]
      · simp [ht]

/-- The listing scan of the timed store is the in-order filter of the slot
indices still ahead of the cursor, mapped to port and remaining
timeout. -/
theorem bitmap_port_timeout_list_scan_eq (m : BitmapPortTimeout) (now : Nat) :
    ∀ (n cursor : Nat), m.last_port - m.first_port + 1 = cursor + n →
      bitmap_port_timeout_list_scan m now cursor =
        ((List.range' cursor n).filter
            (fun id => bitmap_port_timeout_test m id)).map
          (fun id =>
            (m.first_port + id, ip_set_timeout_get now (m.members.getD id 0)))
  | 0, cursor, h => by
      rw [bitmap_port_timeout_list_scan, if_neg (by omega)]
      simp
  | n + 1, cursor, h => by
      rw [bitmap_port_timeout_list_scan,
        if_pos (by omega : cursor ≤ m.last_port - m.first_port)]
      rw [List.range'_succ, List.filter_cons,
        bitmap_port_timeout_list_scan_eq m now n (cursor + 1) (by omega)]
      by_cases ht : bitmap_port_timeout_test m cursor
      · simp [ht]
      · simp [ht]

/-- Effect of the garbage-collection fold on an individual slot read: a
slot among the visited, in-allocation, expired positions reads back as the
sentinel, every other read is unchanged. -/
theorem gc_fold_getD (now : Nat) :
    ∀ (ids : List Nat) (tbl : List Nat) (j : Nat), ids.Pairwise (· < ·) →
      (ids.foldl
          (fun tbl id =>
            if ip_set_timeout_expired now (tbl.getD id 0) then
              tbl.set id IPSET_ELEM_UNSET
            else tbl)
          tbl).getD j 0 =
        if j ∈ ids ∧ j < tbl.length ∧
            ip_set_timeout_expired now (tbl.getD j 0) = true then 0
        else tbl.getD j 0
  | [], tbl, j, _ => by simp
  | i :: ids, tbl, j, hp => by
      have hlt : ∀ x ∈ ids, i < x := (List.pairwise_cons.mp hp).1
      have hp' : ids.Pairwise (· < ·) := (List.pairwise_cons.mp hp).2
      rw [List.foldl_cons]
      by_cases he : ip_set_timeout_expired now (tbl.getD i 0) = true
      · rw [if_pos he, gc_fold_getD now ids _ j hp']
        by_cases hij : j = i
        · subst hij
          have hnotin : j ∉ ids := fun hin => absurd (hlt j hin) (lt_irrefl j)
          rw [if_neg (fun hc => hnotin hc.1)]
          rw [list_getD_set]
          by_cases hlen : j < tbl.length
          · rw [if_pos ⟨rfl, hlen⟩,
              if_pos ⟨List.mem_cons_self j ids, hlen, he⟩]
            rfl
          · rw [if_neg (fun hc => hlen hc.2),
              if_neg (fun hc => hlen hc.2.1)]
        · have hset : (tbl.set i IPSET_ELEM_UNSET).getD j 0 = tbl.getD j 0 := by
            rw [list_getD_set, if_neg (fun hc => hij hc.1.symm)]
          rw [hset, List.length_set]
          by_cases hin : j ∈ ids
          · by_cases hrest : j < tbl.length ∧
                ip_set_timeout_expired now (tbl.getD j 0) = true
            · rw [if_pos ⟨hin, hrest⟩,
                if_pos ⟨List.mem_cons_of_mem i hin, hrest⟩]
            · rw [if_neg (fun hc => hrest ⟨hc.2.1, hc.2.2⟩),
                if_neg (fun hc => hrest ⟨hc.2.1, hc.2.2⟩)]
          · rw [if_neg (fun hc => hin hc.1)]
            have : j ∉ i :: ids := by
              intro hc
              rcases List.mem_cons.mp hc with h1 | h1
              · exact hij h1
              · exact hin h1
            rw [if_neg (fun hc => this hc.1)]
      · rw [if_neg he, gc_fold_getD now ids tbl j hp']
        by_cases hij : j = i
        · subst hij
          have hnotin : j ∉ ids := fun hin => absurd (hlt j hin) (lt_irrefl j)
          rw [if_neg (fun hc => hnotin hc.1),
            if_neg (fun hc => he hc.2.2)]
        · by_cases hc1 : j ∈ ids ∧ j < tbl.length ∧
              ip_set_timeout_expired now (tbl.getD j 0) = true
          · rw [if_pos hc1, if_pos ⟨List.mem_cons_of_mem i hc1.1, hc1.2⟩]
          · rw [if_neg hc1]
            rw [if_neg (fun hc => hc1 ⟨(List.mem_cons.mp hc.1).resolve_left
              (fun h1 => hij h1), hc.2⟩)]

/-- Effect of one garbage-collection tick on an individual slot read: an
in-range, in-allocation, expired slot reads back as the sentinel, every
other read is unchanged. -/
theorem bitmap_port_gc_getD (m : BitmapPortTimeout) (now j : Nat) :
    (bitmap_port_gc m now).members.getD j 0 =
      if j ≤ m.last_port - m.first_port ∧ j < m.members.length ∧
          ip_set_timeout_expired now (m.members.getD j 0) = true then 0
      else m.members.getD j 0 := by
  unfold bitmap_port_gc
  rw [gc_fold_getD now _ _ _ (List.pairwise_lt_range' 0 _)]
  have hmem : j ∈ List.range' 0 (m.last_port - m.first_port + 1) ↔
      j ≤ m.last_port - m.first_port := by
    rw [List.mem_range'_1]
    omega
  simp only [hmem]

/-- Running the add loop over pairwise-increasing, in-allocation,
initially-absent ports succeeds and sets exactly those ports' bits on top
of the existing ones. -/
theorem add_fold_absent (fexist : Bool) :
    ∀ (ps : List Nat) (m : BitmapPort),
      ps.Pairwise (· < ·) →
      (∀ q ∈ ps, m.first_port ≤ q) →
      (∀ q ∈ ps, q - m.first_port < m.members.length) →
      (∀ q ∈ ps, bitmap_port_test m (q - m.first_port) = false) →
      (adt_fold (bitmap_port_adt_step IpsetAdt.add) fexist m ps).1 = 0 ∧
      (adt_fold (bitmap_port_adt_step IpsetAdt.add) fexist m ps).2.first_port
          = m.first_port ∧
      (adt_fold (bitmap_port_adt_step IpsetAdt.add) fexist m ps).2.last_port
          = m.last_port ∧
      (adt_fold
          (bitmap_port_adt_step IpsetAdt.add) fexist m ps).2.members.length
          = m.members.length ∧
      ∀ id,
        bitmap_port_test
            (adt_fold (bitmap_port_adt_step IpsetAdt.add) fexist m ps).2 id =
          (bitmap_port_test m id ||
            ps.any (fun q => q - m.first_port == id))
  | [], m, _, _, _, _ => by simp [adt_fold]
  | q :: ps, m, hp, hge, hlen, habs => by
      have hqmem : q ∈ q :: ps := List.mem_cons_self q ps
      have hstep : bitmap_port_adt_step IpsetAdt.add m q =
          (0, { m with members := m.members.set (q - m.first_port) true }) := by
        unfold bitmap_port_adt_step bitmap_port_add
        rw [if_pos rfl, if_neg (by rw [habs q hqmem]; exact Bool.false_ne_true)]
      rw [adt_fold_cons, hstep]
      rw [if_neg (by simp)]
      set m1 : BitmapPort :=
        { m with members := m.members.set (q - m.first_port) true } with hm1
      have hlt : ∀ x ∈ ps, q < x := (List.pairwise_cons.mp hp).1
      have hidm1 : ∀ id, bitmap_port_test m1 id =
          (bitmap_port_test m id || (q - m.first_port == id)) := by
        intro id
        show (m.members.set (q - m.first_port) true).getD id false = _
        rw [list_getD_set]
        by_cases hqi : q - m.first_port = id
        · rw [if_pos ⟨hqi, hqi ▸ hlen q hqmem⟩, beq_iff_eq.mpr hqi,
            Bool.or_true]
        · rw [if_neg (fun hc => hqi hc.1)]
          rw [beq_eq_false_iff_ne.mpr hqi, Bool.or_false]
          rfl
      have ih := add_fold_absent fexist ps m1
        (List.pairwise_cons.mp hp).2
        (fun q' hq' => hge q' (List.mem_cons_of_mem q hq'))
        (by
          intro q' hq'
          show q' - m.first_port < (m.members.set (q - m.first_port) true).length
          rw [List.length_set]
          exact hlen q' (List.mem_cons_of_mem q hq'))
        (by
          intro q' hq'
          rw [hidm1 (q' - m.first_port)]
          have hne : q - m.first_port ≠ q' - m.first_port := by
            have h1 := hlt q' hq'
            have h2 := hge q hqmem
            omega
          rw [habs q' (List.mem_cons_of_mem q hq'),
            beq_eq_false_iff_ne.mpr hne]
          rfl)
      refine ⟨ih.1, ih.2.1, ih.2.2.1, ?_, ?_⟩
      · rw [ih.2.2.2.1]
        show (m.members.set (q - m.first_port) true).length = _
        rw [List.length_set]
      · intro id
        rw [ih.2.2.2.2 id, hidm1 id, List.any_cons]
        exact Bool.or_assoc (bitmap_port_test m id) (q - m.first_port == id)
          (ps.any fun q' => q' - m.first_port == id)

/-- Normal form of a non-timed mutating range request without a timeout
attribute: one combined bounds check over both endpoints, then the loop
over the normalized interval. -/
theorem uadt_range_eq (m : BitmapPort) (adt : IpsetAdt) (a b : Nat)
    (fexist : Bool) (hadt : adt ≠ IpsetAdt.test) :
    bitmap_port_uadt m adt ⟨a, some b, none⟩ fexist =
      if a < m.first_port ∨ b < m.first_port ∨
          m.last_port < a ∨ m.last_port < b then
        (-IPSET_ERR_BITMAP_RANGE, m)
      else
        adt_fold (bitmap_port_adt_step adt) fexist m
          (List.range' (min a b) (max a b + 1 - min a b)) := by
  unfold bitmap_port_uadt
  simp only [Option.isSome_none, Bool.false_eq_true, if_false,
    if_neg hadt, Nat.min_def, Nat.max_def]
  split_ifs <;> first | rfl | omega

/-- Normal form of a timed mutating range request: one combined bounds
check over both endpoints, then the loop over the normalized interval with
the resolved timeout. -/
theorem timeout_uadt_range_eq (mt : BitmapPortTimeout) (adt : IpsetAdt)
    (a b : Nat) (topt : Option Nat) (fexist : Bool) (now : Nat)
    (hadt : adt ≠ IpsetAdt.test) :
    bitmap_port_timeout_uadt mt adt ⟨a, some b, topt⟩ fexist now =
      if a < mt.first_port ∨ b < mt.first_port ∨
          mt.last_port < a ∨ mt.last_port < b then
        (-IPSET_ERR_BITMAP_RANGE, mt)
      else
        adt_fold
          (bitmap_port_timeout_adt_step adt (topt.getD mt.timeout) now)
          fexist mt
          (List.range' (min a b) (max a b + 1 - min a b)) := by
  unfold bitmap_port_timeout_uadt
  simp only [if_neg hadt, Nat.min_def, Nat.max_def]
  split_ifs <;> first | rfl | omega

/-- Normal form of a non-timed mutating single-port request without a
timeout attribute: bounds check, then the one-element loop. -/
theorem uadt_single_eq (m : BitmapPort) (adt : IpsetAdt) (p : Nat)
    (fexist : Bool) (hadt : adt ≠ IpsetAdt.test) :
    bitmap_port_uadt m adt ⟨p, none, none⟩ fexist =
      if p < m.first_port ∨ m.last_port < p then
        (-IPSET_ERR_BITMAP_RANGE, m)
      else adt_fold (bitmap_port_adt_step adt) fexist m [p] := by
  unfold bitmap_port_uadt
  simp only [Option.isSome_none, Bool.false_eq_true, if_false,
    if_neg hadt]
  split_ifs <;> first | rfl | omega

/-- Normal form of a timed mutating single-port request: bounds check,
then the one-element loop with the resolved timeout. -/
theorem timeout_uadt_single_eq (mt : BitmapPortTimeout) (adt : IpsetAdt)
    (p : Nat) (topt : Option Nat) (fexist : Bool) (now : Nat)
    (hadt : adt ≠ IpsetAdt.test) :
    bitmap_port_timeout_uadt mt adt ⟨p, none, topt⟩ fexist now =
      if p < mt.first_port ∨ mt.last_port < p then
        (-IPSET_ERR_BITMAP_RANGE, mt)
      else
        adt_fold
          (bitmap_port_timeout_adt_step adt (topt.getD mt.timeout) now)
          fexist mt [p] := by
  unfold bitmap_port_timeout_uadt
  simp only [if_neg hadt]
  split_ifs <;> first | rfl | omega

/-- Two fold bodies that agree on every state satisfying a preserved
invariant produce the same left fold. -/
theorem foldl_congr_inv {α β : Type _} (f g : α → β → α) (Inv : α → Prop)
    (hpres : ∀ st x, Inv st → Inv (f st x)) :
    ∀ (xs : List β) (st : α), Inv st →
      (∀ st x, Inv st → x ∈ xs → f st x = g st x) →
      xs.foldl f st = xs.foldl g st
  | [], _, _, _ => rfl
  | x :: xs, st, hinv, hagree => by
      rw [List.foldl_cons, List.foldl_cons,
        ← hagree st x hinv (List.mem_cons_self x xs)]
      exact foldl_congr_inv f g Inv hpres xs (f st x) (hpres st x hinv)
        (fun st' x' h1 h2 => hagree st' x' h1 (List.mem_cons_of_mem x h2))

/-- C9: for every two set descriptors, `same_set` returns true if and
only if the `first_port` and `last_port` bounds are equal and the timeout
policies are equal — trivially so for two non-timed descriptors (both
policies are absent), and with the timeout value itself compared when both
sets are timed. -/
theorem claim_C9_same_set (x y : BitmapPort) (xt yt : BitmapPortTimeout) :
    (bitmap_port_same_set x y = true ↔
      x.first_port = y.first_port ∧ x.last_port = y.last_port) ∧
    (bitmap_port_timeout_same_set xt yt = true ↔
      xt.first_port = yt.first_port ∧ xt.last_port = yt.last_port ∧
        xt.timeout = yt.timeout) := by
  constructor <;>
    simp [bitmap_port_same_set, bitmap_port_timeout_same_set, and_assoc]

/-- C7: on both variants, every control request and every kernel-path
request whose port lies outside the configured bounds fails with
`IPSET_ERR_BITMAP_RANGE` and leaves the store unchanged. -/
theorem claim_C7_out_of_range (m : BitmapPort) (mt : BitmapPortTimeout)
    (adt : IpsetAdt) (req : AdtRequest) (fexist : Bool) (now : Nat)
    (h1 : req.port < m.first_port ∨ m.last_port < req.port)
    (h2 : req.port < mt.first_port ∨ mt.last_port < req.port) :
    bitmap_port_uadt m adt req fexist = (-IPSET_ERR_BITMAP_RANGE, m) ∧
    bitmap_port_kadt m adt req.port = (-IPSET_ERR_BITMAP_RANGE, m) ∧
    bitmap_port_timeout_uadt mt adt req fexist now =
      (-IPSET_ERR_BITMAP_RANGE, mt) ∧
    bitmap_port_timeout_kadt mt adt req.port now =
      (-IPSET_ERR_BITMAP_RANGE, mt) := by
  refine ⟨?_, ?_, ?_, ?_⟩
  · unfold bitmap_port_uadt
    rw [if_pos h1]
  · unfold bitmap_port_kadt
    rw [if_pos h1]
  · unfold bitmap_port_timeout_uadt
    rw [if_pos h2]
  · unfold bitmap_port_timeout_kadt
    rw [if_pos h2]

/-- Witness for C7 at a concrete out-of-range request. -/
theorem claim_C7_out_of_range_witness :
    bitmap_port_uadt ⟨[false], 5, 5⟩ IpsetAdt.add ⟨7, none, none⟩ false =
      (-IPSET_ERR_BITMAP_RANGE, ⟨[false], 5, 5⟩) :=
  (claim_C7_out_of_range ⟨[false], 5, 5⟩ ⟨[0], 5, 5, 3⟩ IpsetAdt.add
    ⟨7, none, none⟩ false 0 (by decide) (by decide)).1

/-- C1: on the timed variant, a test request on an in-range port answers
present exactly when the slot holds any non-sentinel value — in
particular an entry whose expiry instant has passed still reads as
present — and only after the garbage collector has swept the expired
slot does the same test read absent. -/
theorem claim_C1_lazy_test (mt : BitmapPortTimeout) (req : AdtRequest)
    (fexist : Bool) (now : Nat)
    (h1 : ¬(req.port < mt.first_port)) (h2 : ¬(mt.last_port < req.port)) :
    ((bitmap_port_timeout_uadt mt IpsetAdt.test req fexist now).1 = 1 ↔
      mt.members.getD (req.port - mt.first_port) 0 ≠ IPSET_ELEM_UNSET) ∧
    (ip_set_timeout_expired now
        (mt.members.getD (req.port - mt.first_port) 0) = true →
      req.port - mt.first_port < mt.members.length →
      (bitmap_port_timeout_uadt (bitmap_port_gc mt now) IpsetAdt.test req
          fexist now).1 = 0) := by
  constructor
  · unfold bitmap_port_timeout_uadt
    rw [if_neg (not_or.mpr ⟨h1, h2⟩), if_pos rfl]
    by_cases hz : mt.members.getD (req.port - mt.first_port) 0 =
        IPSET_ELEM_UNSET
    · simp [bitmap_port_timeout_test, ip_set_timeout_test, hz]
    · simp [bitmap_port_timeout_test, ip_set_timeout_test, hz]
  · intro hexp hlen
    unfold bitmap_port_timeout_uadt
    simp only [show (bitmap_port_gc mt now).first_port = mt.first_port
      from rfl, show (bitmap_port_gc mt now).last_port = mt.last_port
      from rfl]
    rw [if_neg (not_or.mpr ⟨h1, h2⟩), if_pos trivial]
    have hslot : (bitmap_port_gc mt now).members.getD
        (req.port - mt.first_port) 0 = 0 := by
      rw [bitmap_port_gc_getD, if_pos ⟨by omega, hlen, hexp⟩]
    show (if bitmap_port_timeout_test (bitmap_port_gc mt now)
        (req.port - mt.first_port) then (1 : Int) else 0) = 0
    simp [bitmap_port_timeout_test, ip_set_timeout_test,
      ← List.getD_eq_getElem?_getD, hslot, IPSET_ELEM_UNSET]

/-- Witness for C1: port 10 on the set over `[10,10]` whose single slot
holds expiry instant 5; at time 9 the entry is expired yet unswept, the
test answers present, and after one sweep it answers absent. -/
theorem claim_C1_lazy_test_witness :
    (bitmap_port_timeout_uadt ⟨[5], 10, 10, 3⟩ IpsetAdt.test
        ⟨10, none, none⟩ false 9).1 = 1 ∧
    (bitmap_port_timeout_uadt (bitmap_port_gc ⟨[5], 10, 10, 3⟩ 9)
        IpsetAdt.test ⟨10, none, none⟩ false 9).1 = 0 := by
  have h := claim_C1_lazy_test ⟨[5], 10, 10, 3⟩ ⟨10, none, none⟩ false 9
    (by decide) (by decide)
  exact ⟨h.1.mpr (by decide), h.2 (by decide) (by decide)⟩

/-- Counterexample to C2 as stated: a delete request on a timed set
carrying a timeout attribute does not fail with a protocol error — the
attribute is parsed and ignored and the deletion succeeds. -/
theorem claim_C2_counterexample :
    (bitmap_port_timeout_uadt ⟨[7], 0, 0, 3⟩ IpsetAdt.del ⟨0, none, some 5⟩
        false 0).1 = 0 ∧
    (0 : Int) ≠ -IPSET_ERR_PROTOCOL ∧ (0 : Int) ≠ -IPSET_ERR_TIMEOUT := by
  decide

/-- C2 as amended: a timeout attribute is rejected only by the non-timed
variant — an in-range add, delete or test request carrying one fails with
the dedicated timeout-unsupported error, while an out-of-range one fails
the bounds check first.  The timed variant never rejects the attribute: an
add uses it in place of the set default, and delete and test requests can
never return the timeout-rejection or protocol error codes. -/
theorem claim_C2_timeout_attr (m : BitmapPort) (mt : BitmapPortTimeout)
    (adt : IpsetAdt) (req : AdtRequest) (fexist : Bool) (now p T : Nat)
    (hsome : req.timeout.isSome = true)
    (hp1 : ¬(p < mt.first_port)) (hp2 : ¬(mt.last_port < p))
    (habs : bitmap_port_timeout_test mt (p - mt.first_port) = false) :
    (¬(req.port < m.first_port ∨ m.last_port < req.port) →
      bitmap_port_uadt m adt req fexist = (-IPSET_ERR_TIMEOUT, m)) ∧
    ((req.port < m.first_port ∨ m.last_port < req.port) →
      bitmap_port_uadt m adt req fexist = (-IPSET_ERR_BITMAP_RANGE, m)) ∧
    (bitmap_port_timeout_uadt mt IpsetAdt.add ⟨p, none, some T⟩ fexist now =
      (0, { mt with
            members := mt.members.set (p - mt.first_port)
                (ip_set_timeout_set now T) })) ∧
    ((bitmap_port_timeout_uadt mt IpsetAdt.del req fexist now).1 ≠
        -IPSET_ERR_TIMEOUT ∧
      (bitmap_port_timeout_uadt mt IpsetAdt.del req fexist now).1 ≠
        -IPSET_ERR_PROTOCOL) ∧
    ((bitmap_port_timeout_uadt mt IpsetAdt.test req fexist now).1 ≠
        -IPSET_ERR_TIMEOUT ∧
      (bitmap_port_timeout_uadt mt IpsetAdt.test req fexist now).1 ≠
        -IPSET_ERR_PROTOCOL) := by
  have hRT : (-IPSET_ERR_BITMAP_RANGE : Int) ≠ -IPSET_ERR_TIMEOUT := by
    decide
  have hRP : (-IPSET_ERR_BITMAP_RANGE : Int) ≠ -IPSET_ERR_PROTOCOL := by
    decide
  have h0T : (0 : Int) ≠ -IPSET_ERR_TIMEOUT := by decide
  have h0P : (0 : Int) ≠ -IPSET_ERR_PROTOCOL := by decide
  have hET : (-IPSET_ERR_EXIST : Int) ≠ -IPSET_ERR_TIMEOUT := by decide
  have hEP : (-IPSET_ERR_EXIST : Int) ≠ -IPSET_ERR_PROTOCOL := by decide
  have h1T : (1 : Int) ≠ -IPSET_ERR_TIMEOUT := by decide
  have h1P : (1 : Int) ≠ -IPSET_ERR_PROTOCOL := by decide
  obtain ⟨port, port_to, topt⟩ := req
  dsimp only at hsome ⊢
  refine ⟨?_, ?_, ?_, ?_, ?_⟩
  · intro hin
    unfold bitmap_port_uadt
    dsimp only
    rw [if_neg hin, if_pos hsome]
  · intro hout
    unfold bitmap_port_uadt
    dsimp only
    rw [if_pos hout]
  · rw [timeout_uadt_single_eq mt IpsetAdt.add p (some T) fexist now
      (by decide), if_neg (not_or.mpr ⟨hp1, hp2⟩), adt_fold_cons]
    have hstep : bitmap_port_timeout_adt_step IpsetAdt.add
        ((some T).getD mt.timeout) now mt p =
        (0, { mt with
              members := mt.members.set (p - mt.first_port)
                  (ip_set_timeout_set now T) }) := by
      unfold bitmap_port_timeout_adt_step bitmap_port_timeout_add
      rw [if_pos rfl, if_neg (by rw [habs]; exact Bool.false_ne_true)]
      rfl
    rw [hstep, if_neg (by simp)]
    rfl
  · cases port_to with
    | none =>
        rw [timeout_uadt_single_eq mt IpsetAdt.del port topt fexist now
          (by decide)]
        split_ifs
        · exact ⟨hRT, hRP⟩
        · rcases adt_fold_code _ fexist
            (bitmap_port_timeout_adt_step_code IpsetAdt.del
              (topt.getD mt.timeout) now) [port] mt with h | h <;> rw [h]
          · exact ⟨h0T, h0P⟩
          · exact ⟨hET, hEP⟩
    | some pt =>
        rw [timeout_uadt_range_eq mt IpsetAdt.del port pt topt fexist now
          (by decide)]
        split_ifs
        · exact ⟨hRT, hRP⟩
        · rcases adt_fold_code _ fexist
            (bitmap_port_timeout_adt_step_code IpsetAdt.del
              (topt.getD mt.timeout) now) _ mt with h | h <;> rw [h]
          · exact ⟨h0T, h0P⟩
          · exact ⟨hET, hEP⟩
  · unfold bitmap_port_timeout_uadt
    dsimp only
    by_cases hb : port < mt.first_port ∨ mt.last_port < port
    · rw [if_pos hb]
      exact ⟨hRT, hRP⟩
    · rw [if_neg hb, if_pos rfl]
      by_cases ht : bitmap_port_timeout_test mt (port - mt.first_port) = true
      · rw [if_pos ht]
        exact ⟨h1T, h1P⟩
      · rw [if_neg ht]
        exact ⟨h0T, h0P⟩

/-- Witness for C2 as amended: a concrete non-timed rejection, a concrete
timed add that honours the supplied timeout (10 + 4 = 14), and a concrete
timed delete that does not return the timeout-rejection code. -/
theorem claim_C2_timeout_attr_witness :
    bitmap_port_uadt ⟨[false], 0, 0⟩ IpsetAdt.add ⟨0, none, some 4⟩ false =
      (-IPSET_ERR_TIMEOUT, ⟨[false], 0, 0⟩) ∧
    bitmap_port_timeout_uadt ⟨[0], 0, 0, 3⟩ IpsetAdt.add ⟨0, none, some 4⟩
        false 10 = (0, ⟨[14], 0, 0, 3⟩) ∧
    (bitmap_port_timeout_uadt ⟨[0], 0, 0, 3⟩ IpsetAdt.del ⟨0, none, some 4⟩
        false 10).1 ≠ -IPSET_ERR_TIMEOUT := by
  have h := claim_C2_timeout_attr ⟨[false], 0, 0⟩ ⟨[0], 0, 0, 3⟩
    IpsetAdt.add ⟨0, none, some 4⟩ false 10 0 4 (by decide) (by decide)
    (by decide) (by decide)
  exact ⟨h.1 (by decide), h.2.2.1, h.2.2.2.1.1⟩

/-- Counterexample to C3 as stated: deleting an in-range timed slot whose
expiry instant (5) is already past at time 99, but which the sweeper has
not yet cleared, reports success, not the does-not-exist error the claim
requires. -/
theorem claim_C3_counterexample :
    ip_set_timeout_expired 99 (([5] : List Nat).getD 0 0) = true ∧
    (bitmap_port_timeout_uadt ⟨[5], 0, 0, 10⟩ IpsetAdt.del ⟨0, none, none⟩
        false 99).1 = 0 ∧
    (0 : Int) ≠ -IPSET_ERR_EXIST := by
  decide

/-- C3 as amended: on the timed variant, delete of an in-range port
unconditionally resets the slot to the sentinel, and (with duplicate
tolerance off) reports the does-not-exist error exactly when the slot was
already the sentinel; a slot holding any non-sentinel value — an expired
but not yet swept entry included — still tests present, so its deletion
reports success. -/
theorem claim_C3_del_clears (mt : BitmapPortTimeout) (p now : Nat)
    (h1 : ¬(p < mt.first_port)) (h2 : ¬(mt.last_port < p)) :
    (bitmap_port_timeout_uadt mt IpsetAdt.del ⟨p, none, none⟩ false now).2 =
      { mt with members :=
          mt.members.set (p - mt.first_port) IPSET_ELEM_UNSET } ∧
    ((bitmap_port_timeout_uadt mt IpsetAdt.del ⟨p, none, none⟩ false now).1
        = 0 ↔
      mt.members.getD (p - mt.first_port) 0 ≠ IPSET_ELEM_UNSET) ∧
    ((bitmap_port_timeout_uadt mt IpsetAdt.del ⟨p, none, none⟩ false now).1
        = -IPSET_ERR_EXIST ↔
      mt.members.getD (p - mt.first_port) 0 = IPSET_ELEM_UNSET) := by
  rw [timeout_uadt_single_eq mt IpsetAdt.del p none false now (by decide),
    if_neg (not_or.mpr ⟨h1, h2⟩), adt_fold_cons]
  cases htest : bitmap_port_timeout_test mt (p - mt.first_port) with
  | false =>
      have hz : mt.members.getD (p - mt.first_port) 0 = IPSET_ELEM_UNSET := by
        simpa [bitmap_port_timeout_test, ip_set_timeout_test,
          ← List.getD_eq_getElem?_getD] using htest
      have hstep : bitmap_port_timeout_adt_step IpsetAdt.del
          (Option.getD none mt.timeout) now mt p =
          (-IPSET_ERR_EXIST,
           { mt with members :=
               mt.members.set (p - mt.first_port) IPSET_ELEM_UNSET }) := by
        unfold bitmap_port_timeout_adt_step bitmap_port_timeout_del
        rw [if_neg (by decide),
          if_neg (by rw [htest]; exact Bool.false_ne_true)]
      have hEne : (-IPSET_ERR_EXIST : Int) ≠ 0 := by decide
      rw [hstep, if_pos ⟨hEne, by simp [ip_set_eexist]⟩]
      refine ⟨rfl, ?_, ?_⟩
      · show (-IPSET_ERR_EXIST : Int) = 0 ↔ _
        exact ⟨fun h => absurd h (by decide), fun h => absurd hz h⟩
      · show (-IPSET_ERR_EXIST : Int) = -IPSET_ERR_EXIST ↔ _
        exact ⟨fun _ => hz, fun _ => rfl⟩
  | true =>
      have hz : mt.members.getD (p - mt.first_port) 0 ≠ IPSET_ELEM_UNSET := by
        simpa [bitmap_port_timeout_test, ip_set_timeout_test,
          ← List.getD_eq_getElem?_getD] using htest
      have hstep : bitmap_port_timeout_adt_step IpsetAdt.del
          (Option.getD none mt.timeout) now mt p =
          (0,
           { mt with members :=
               mt.members.set (p - mt.first_port) IPSET_ELEM_UNSET }) := by
        unfold bitmap_port_timeout_adt_step bitmap_port_timeout_del
        rw [if_neg (by decide), if_pos htest]
      rw [hstep, if_neg (by simp)]
      refine ⟨rfl, ?_, ?_⟩
      · show (0 : Int) = 0 ↔ _
        exact ⟨fun _ => hz, fun _ => rfl⟩
      · show (0 : Int) = -IPSET_ERR_EXIST ↔ _
        exact ⟨fun h => absurd h (by decide), fun h => absurd h hz⟩

/-- Witness for C3 as amended: delete of an absent slot clears it and
reports the does-not-exist error. -/
theorem claim_C3_del_clears_witness :
    (bitmap_port_timeout_uadt ⟨[0], 0, 0, 9⟩ IpsetAdt.del ⟨0, none, none⟩
        false 5).2 = ⟨[0], 0, 0, 9⟩ ∧
    (bitmap_port_timeout_uadt ⟨[0], 0, 0, 9⟩ IpsetAdt.del ⟨0, none, none⟩
        false 5).1 = -IPSET_ERR_EXIST := by
  have h := claim_C3_del_clears ⟨[0], 0, 0, 9⟩ 0 5 (by decide) (by decide)
  exact ⟨h.1, h.2.2.mpr (by decide)⟩

/-- Counterexample to C10 as stated: adding an in-range timed port whose
slot holds the already-expired instant 5 at time 99 (not yet swept) fails
with `IPSET_ERR_EXIST` and leaves the stale slot unchanged, instead of
succeeding and overwriting the expiry as the claim requires. -/
theorem claim_C10_counterexample :
    ip_set_timeout_expired 99 (([5] : List Nat).getD 0 0) = true ∧
    (bitmap_port_timeout_uadt ⟨[5], 0, 0, 10⟩ IpsetAdt.add ⟨0, none, none⟩
        false 99).1 = -IPSET_ERR_EXIST ∧
    (bitmap_port_timeout_uadt ⟨[5], 0, 0, 10⟩ IpsetAdt.add ⟨0, none, none⟩
        false 99).2 = ⟨[5], 0, 0, 10⟩ := by
  decide

/-- C10 as amended: on the timed variant, add of an in-range port whose
slot holds any non-sentinel value — an expired but not yet swept entry
included — fails with `IPSET_ERR_EXIST` and leaves the store unchanged
(under any duplicate-tolerance flag the state is unchanged); only after a
garbage-collection tick has cleared the expired slot does the add succeed
and write the new expiry instant. -/
theorem claim_C10_add_expired (mt : BitmapPortTimeout) (p now : Nat)
    (fexist : Bool)
    (h1 : ¬(p < mt.first_port)) (h2 : ¬(mt.last_port < p))
    (hpres : mt.members.getD (p - mt.first_port) 0 ≠ IPSET_ELEM_UNSET) :
    (bitmap_port_timeout_uadt mt IpsetAdt.add ⟨p, none, none⟩ false now =
      (-IPSET_ERR_EXIST, mt)) ∧
    ((bitmap_port_timeout_uadt mt IpsetAdt.add ⟨p, none, none⟩ fexist now).2
      = mt) ∧
    (ip_set_timeout_expired now
        (mt.members.getD (p - mt.first_port) 0) = true →
      p - mt.first_port < mt.members.length →
      bitmap_port_timeout_uadt (bitmap_port_gc mt now) IpsetAdt.add
          ⟨p, none, none⟩ fexist now =
        (0, { bitmap_port_gc mt now with
              members := (bitmap_port_gc mt now).members.set
                (p - mt.first_port)
                (ip_set_timeout_set now mt.timeout) })) := by
  have htest : bitmap_port_timeout_test mt (p - mt.first_port) = true := by
    simp [bitmap_port_timeout_test, ip_set_timeout_test,
      ← List.getD_eq_getElem?_getD, hpres]
  have hstep : bitmap_port_timeout_adt_step IpsetAdt.add
      (Option.getD none mt.timeout) now mt p = (-IPSET_ERR_EXIST, mt) := by
    unfold bitmap_port_timeout_adt_step bitmap_port_timeout_add
    rw [if_pos rfl, if_pos htest]
  have hEne : (-IPSET_ERR_EXIST : Int) ≠ 0 := by decide
  refine ⟨?_, ?_, ?_⟩
  · rw [timeout_uadt_single_eq mt IpsetAdt.add p none false now (by decide),
      if_neg (not_or.mpr ⟨h1, h2⟩), adt_fold_cons, hstep,
      if_pos ⟨hEne, by simp [ip_set_eexist]⟩]
  · rw [timeout_uadt_single_eq mt IpsetAdt.add p none fexist now (by decide),
      if_neg (not_or.mpr ⟨h1, h2⟩), adt_fold_cons, hstep]
    split_ifs <;> rfl
  · intro hexp hlen
    have hslot : (bitmap_port_gc mt now).members.getD
        (p - mt.first_port) 0 = 0 := by
      rw [bitmap_port_gc_getD, if_pos ⟨by omega, hlen, hexp⟩]
    have httgc : bitmap_port_timeout_test (bitmap_port_gc mt now)
        (p - (bitmap_port_gc mt now).first_port) = false := by
      show ip_set_timeout_test ((bitmap_port_gc mt now).members.getD
        (p - mt.first_port) 0) = false
      rw [hslot]
      decide
    have hgcb : ¬(p < (bitmap_port_gc mt now).first_port ∨
        (bitmap_port_gc mt now).last_port < p) :=
      not_or.mpr ⟨h1, h2⟩
    rw [timeout_uadt_single_eq _ IpsetAdt.add p none fexist now (by decide),
      if_neg hgcb, adt_fold_cons]
    have hstepgc : bitmap_port_timeout_adt_step IpsetAdt.add
        (Option.getD none (bitmap_port_gc mt now).timeout) now
        (bitmap_port_gc mt now) p =
        (0, { bitmap_port_gc mt now with
              members := (bitmap_port_gc mt now).members.set
                (p - mt.first_port)
                (ip_set_timeout_set now mt.timeout) }) := by
      unfold bitmap_port_timeout_adt_step bitmap_port_timeout_add
      rw [if_pos rfl, if_neg (by rw [httgc]; exact Bool.false_ne_true)]
      rfl
    rw [hstepgc, if_neg (by simp)]
    rfl

/-- Witness for C10 as amended at the counterexample input: the stale add
fails, and after one sweep at time 99 the add succeeds and writes the new
expiry instant 99 + 10 = 109. -/
theorem claim_C10_add_expired_witness :
    bitmap_port_timeout_uadt ⟨[5], 0, 0, 10⟩ IpsetAdt.add ⟨0, none, none⟩
        false 99 = (-IPSET_ERR_EXIST, ⟨[5], 0, 0, 10⟩) ∧
    bitmap_port_timeout_uadt (bitmap_port_gc ⟨[5], 0, 0, 10⟩ 99)
        IpsetAdt.add ⟨0, none, none⟩ false 99 = (0, ⟨[109], 0, 0, 10⟩) := by
  have h := claim_C10_add_expired ⟨[5], 0, 0, 10⟩ 0 99 false (by decide)
    (by decide) (by decide)
  refine ⟨h.1, ?_⟩
  rw [h.2.2 (by decide) (by decide)]
  decide

/-- C8: on both variants, a full uninterrupted list pass from cursor 0
over an unchanging store emits exactly the ports whose slots test as
present, each exactly once, in increasing slot order, and finishes with
the cursor reset to 0. -/
theorem claim_C8_listing (m : BitmapPort) (mt : BitmapPortTimeout)
    (now : Nat) :
    (bitmap_port_list m 0).2 = 0 ∧
    (bitmap_port_list m 0).1 =
      ((List.range' 0 (m.last_port - m.first_port + 1)).filter
          (fun id => bitmap_port_test m id)).map
        (fun id => m.first_port + id) ∧
    (bitmap_port_list m 0).1.Pairwise (· < ·) ∧
    (bitmap_port_list m 0).1.Nodup ∧
    (∀ q : Nat, q ∈ (bitmap_port_list m 0).1 ↔
      ∃ id, id ≤ m.last_port - m.first_port ∧
        bitmap_port_test m id = true ∧ q = m.first_port + id) ∧
    (bitmap_port_timeout_list mt now 0).2 = 0 ∧
    (bitmap_port_timeout_list mt now 0).1.map Prod.fst =
      ((List.range' 0 (mt.last_port - mt.first_port + 1)).filter
          (fun id => bitmap_port_timeout_test mt id)).map
        (fun id => mt.first_port + id) ∧
    ((bitmap_port_timeout_list mt now 0).1.map Prod.fst).Pairwise (· < ·) ∧
    ((bitmap_port_timeout_list mt now 0).1.map Prod.fst).Nodup ∧
    (∀ q : Nat, q ∈ (bitmap_port_timeout_list mt now 0).1.map Prod.fst ↔
      ∃ id, id ≤ mt.last_port - mt.first_port ∧
        bitmap_port_timeout_test mt id = true ∧ q = mt.first_port + id) := by
  have e1 : (bitmap_port_list m 0).1 =
      ((List.range' 0 (m.last_port - m.first_port + 1)).filter
          (fun id => bitmap_port_test m id)).map
        (fun id => m.first_port + id) :=
    bitmap_port_list_scan_eq m (m.last_port - m.first_port + 1) 0 (by omega)
  have e2 : (bitmap_port_timeout_list mt now 0).1.map Prod.fst =
      ((List.range' 0 (mt.last_port - mt.first_port + 1)).filter
          (fun id => bitmap_port_timeout_test mt id)).map
        (fun id => mt.first_port + id) := by
    show (bitmap_port_timeout_list_scan mt now 0).map Prod.fst = _
    rw [bitmap_port_timeout_list_scan_eq mt now
      (mt.last_port - mt.first_port + 1) 0 (by omega), List.map_map]
    rfl
  have hp1 : (bitmap_port_list m 0).1.Pairwise (· < ·) := by
    rw [e1]
    refine List.pairwise_map.mpr (List.Pairwise.imp ?_
      (List.Pairwise.sublist (List.filter_sublist _)
        (List.pairwise_lt_range' 0 _)))
    intro a b h
    omega
  have hp2 : ((bitmap_port_timeout_list mt now 0).1.map
      Prod.fst).Pairwise (· < ·) := by
    rw [e2]
    refine List.pairwise_map.mpr (List.Pairwise.imp ?_
      (List.Pairwise.sublist (List.filter_sublist _)
        (List.pairwise_lt_range' 0 _)))
    intro a b h
    omega
  refine ⟨rfl, e1, hp1, hp1.imp (fun h => Nat.ne_of_lt h), ?_, rfl, e2, hp2,
    hp2.imp (fun h => Nat.ne_of_lt h), ?_⟩
  · intro q
    rw [e1]
    constructor
    · intro h
      rcases List.mem_map.mp h with ⟨id, hid, rfl⟩
      rcases List.mem_filter.mp hid with ⟨hmem, htest⟩
      rcases List.mem_range'_1.mp hmem with ⟨_, hw⟩
      exact ⟨id, by omega, htest, rfl⟩
    · rintro ⟨id, hle, ht, rfl⟩
      exact List.mem_map.mpr ⟨id, List.mem_filter.mpr
        ⟨List.mem_range'_1.mpr ⟨Nat.zero_le id, by omega⟩, ht⟩, rfl⟩
  · intro q
    rw [e2]
    constructor
    · intro h
      rcases List.mem_map.mp h with ⟨id, hid, rfl⟩
      rcases List.mem_filter.mp hid with ⟨hmem, htest⟩
      rcases List.mem_range'_1.mp hmem with ⟨_, hw⟩
      exact ⟨id, by omega, htest, rfl⟩
    · rintro ⟨id, hle, ht, rfl⟩
      exact List.mem_map.mpr ⟨id, List.mem_filter.mpr
        ⟨List.mem_range'_1.mpr ⟨Nat.zero_le id, by omega⟩, ht⟩, rfl⟩

/-- C6: for an in-bounds pair `lo ≤ hi`, the post-state of the range add
request equals the post-state of issuing the single adds sequentially
with `AlreadyExists` swallowed. -/
theorem claim_C6_range_refines_singles (m : BitmapPort) (lo hi : Nat)
    (h1 : ¬(lo < m.first_port)) (h2 : ¬(m.last_port < hi)) (h3 : lo ≤ hi) :
    (bitmap_port_uadt m IpsetAdt.add ⟨lo, some hi, none⟩ true).2 =
      add_seq_spec m lo hi := by
  rw [uadt_range_eq m IpsetAdt.add lo hi true (by decide),
    if_neg (by omega), show min lo hi = lo from by omega,
    show max lo hi = hi from by omega,
    adt_fold_swallow _ (bitmap_port_adt_step_code IpsetAdt.add) _ m]
  show (List.range' lo (hi + 1 - lo)).foldl
      (fun st q => (bitmap_port_adt_step IpsetAdt.add st q).2) m =
    add_seq_spec m lo hi
  unfold add_seq_spec
  apply foldl_congr_inv _ _
    (fun st => st.first_port = m.first_port ∧ st.last_port = m.last_port)
  · intro st q hinv
    have hb := bitmap_port_adt_step_bounds IpsetAdt.add st q
    exact ⟨hb.1.trans hinv.1, hb.2.trans hinv.2⟩
  · exact ⟨rfl, rfl⟩
  · intro st q hinv hqmem
    rcases List.mem_range'_1.mp hqmem with ⟨hq1, hq2⟩
    rw [uadt_single_eq st IpsetAdt.add q true (by decide),
      if_neg (by rw [hinv.1, hinv.2]; omega),
      adt_fold_swallow _ (bitmap_port_adt_step_code IpsetAdt.add) [q] st]
    rfl

/-- Witness for C6 at a concrete store and range. -/
theorem claim_C6_range_refines_singles_witness :
    (bitmap_port_uadt ⟨[true, false, false], 0, 2⟩ IpsetAdt.add
        ⟨0, some 2, none⟩ true).2 =
      add_seq_spec ⟨[true, false, false], 0, 2⟩ 0 2 :=
  claim_C6_range_refines_singles ⟨[true, false, false], 0, 2⟩ 0 2
    (by decide) (by decide) (by decide)

/-- Counterexample to C5 as stated: by the spec's glossary a test request
carrying `port_to` is a range operation, yet the handler ignores the
second endpoint for test and tests only the first — on the store over
`[0,1]` whose sole member is port 1, the request `(1, 0)` answers present
while `(0, 1)` answers absent, so the two orders do not behave
identically. -/
theorem claim_C5_counterexample :
    bitmap_port_uadt ⟨[false, true], 0, 1⟩ IpsetAdt.test ⟨1, some 0, none⟩
        false ≠
      bitmap_port_uadt ⟨[false, true], 0, 1⟩ IpsetAdt.test ⟨0, some 1, none⟩
        false := by
  decide

/-- C5 as amended: for add and delete range requests the two endpoint
orders behave identically (same result, same post-state), and after an
out-of-order pair is swapped the new low endpoint is still checked
against `first_port` and the high endpoint against `last_port` before any
mutation; a test request, by contrast, ignores `port_to` entirely. -/
theorem claim_C5_swap (m : BitmapPort) (mt : BitmapPortTimeout)
    (adt : IpsetAdt) (a b : Nat) (topt : Option Nat) (fexist : Bool)
    (now : Nat) (hadt : adt ≠ IpsetAdt.test) :
    (bitmap_port_uadt m adt ⟨a, some b, none⟩ fexist =
      bitmap_port_uadt m adt ⟨b, some a, none⟩ fexist) ∧
    (bitmap_port_timeout_uadt mt adt ⟨a, some b, topt⟩ fexist now =
      bitmap_port_timeout_uadt mt adt ⟨b, some a, topt⟩ fexist now) ∧
    (¬(a < m.first_port) → ¬(m.last_port < a) → b < a → b < m.first_port →
      bitmap_port_uadt m adt ⟨a, some b, none⟩ fexist =
        (-IPSET_ERR_BITMAP_RANGE, m)) ∧
    (¬(a < m.first_port) → ¬(m.last_port < a) → a ≤ b →
        m.last_port < b →
      bitmap_port_uadt m adt ⟨a, some b, none⟩ fexist =
        (-IPSET_ERR_BITMAP_RANGE, m)) ∧
    (¬(a < mt.first_port) → ¬(mt.last_port < a) → b < a →
        b < mt.first_port →
      bitmap_port_timeout_uadt mt adt ⟨a, some b, topt⟩ fexist now =
        (-IPSET_ERR_BITMAP_RANGE, mt)) ∧
    (¬(a < mt.first_port) → ¬(mt.last_port < a) → a ≤ b →
        mt.last_port < b →
      bitmap_port_timeout_uadt mt adt ⟨a, some b, topt⟩ fexist now =
        (-IPSET_ERR_BITMAP_RANGE, mt)) := by
  refine ⟨?_, ?_, ?_, ?_, ?_, ?_⟩
  · rw [uadt_range_eq m adt a b fexist hadt,
      uadt_range_eq m adt b a fexist hadt, min_comm b a, max_comm b a]
    simp only [show (a < m.first_port ∨ b < m.first_port ∨
        m.last_port < a ∨ m.last_port < b) ↔
      (b < m.first_port ∨ a < m.first_port ∨ m.last_port < b ∨
        m.last_port < a) from by tauto]
  · rw [timeout_uadt_range_eq mt adt a b topt fexist now hadt,
      timeout_uadt_range_eq mt adt b a topt fexist now hadt,
      min_comm b a, max_comm b a]
    simp only [show (a < mt.first_port ∨ b < mt.first_port ∨
        mt.last_port < a ∨ mt.last_port < b) ↔
      (b < mt.first_port ∨ a < mt.first_port ∨ mt.last_port < b ∨
        mt.last_port < a) from by tauto]
  · intro h1 h2 h3 h4
    rw [uadt_range_eq m adt a b fexist hadt, if_pos (by omega)]
  · intro h1 h2 h3 h4
    rw [uadt_range_eq m adt a b fexist hadt, if_pos (by omega)]
  · intro h1 h2 h3 h4
    rw [timeout_uadt_range_eq mt adt a b topt fexist now hadt,
      if_pos (by omega)]
  · intro h1 h2 h3 h4
    rw [timeout_uadt_range_eq mt adt a b topt fexist now hadt,
      if_pos (by omega)]

/-- Witness for C5 as amended: a concrete out-of-order add behaving like
its in-order mirror, and a concrete swapped low endpoint rejected against
`first_port`. -/
theorem claim_C5_swap_witness :
    bitmap_port_uadt ⟨[false, false], 0, 1⟩ IpsetAdt.add ⟨1, some 0, none⟩
        false =
      bitmap_port_uadt ⟨[false, false], 0, 1⟩ IpsetAdt.add ⟨0, some 1, none⟩
        false ∧
    bitmap_port_uadt ⟨[false], 1, 1⟩ IpsetAdt.add ⟨1, some 0, none⟩ false =
      (-IPSET_ERR_BITMAP_RANGE, ⟨[false], 1, 1⟩) := by
  refine ⟨(claim_C5_swap ⟨[false, false], 0, 1⟩ ⟨[0], 0, 0, 3⟩ IpsetAdt.add
    1 0 none false 0 (by decide)).1, ?_⟩
  exact (claim_C5_swap ⟨[false], 1, 1⟩ ⟨[0], 0, 0, 3⟩ IpsetAdt.add 1 0 none
    false 0 (by decide)).2.2.1 (by decide) (by decide) (by decide)
    (by decide)

/-- An add step on a port whose slot already tests present reports
`IPSET_ERR_EXIST` and leaves the store unchanged (the rewritten bit value
equals the stored one). -/
theorem bitmap_port_adt_step_add_present (st : BitmapPort) (p : Nat)
    (h : bitmap_port_test st (p - st.first_port) = true) :
    bitmap_port_adt_step IpsetAdt.add st p = (-IPSET_ERR_EXIST, st) := by
  unfold bitmap_port_adt_step bitmap_port_add
  rw [if_pos rfl, if_pos h, list_set_getD_self _ _ _ false h]

/-- C4: with duplicate tolerance on, a valid range add/delete never fails
on `IPSET_ERR_EXIST` members (it reports success), on both variants; with
tolerance off, an add range aborts at its first already-present member
with `IPSET_ERR_EXIST`, the earlier members' insertions stay committed and
the later members are never touched (no rollback). -/
theorem claim_C4_partial_failure (m : BitmapPort) (mt : BitmapPortTimeout)
    (adt : IpsetAdt) (lo hi p : Nat) (topt : Option Nat) (now : Nat)
    (hadt : adt ≠ IpsetAdt.test)
    (hlo : ¬(lo < m.first_port)) (hhi : ¬(m.last_port < hi))
    (hlohi : lo ≤ hi) :
    ((bitmap_port_uadt m adt ⟨lo, some hi, none⟩ true).1 = 0) ∧
    (¬(lo < mt.first_port) → ¬(mt.last_port < hi) →
      (bitmap_port_timeout_uadt mt adt ⟨lo, some hi, topt⟩ true now).1
        = 0) ∧
    ((∀ q, lo ≤ q → q < p →
        bitmap_port_test m (q - m.first_port) = false) →
      lo ≤ p → p ≤ hi →
      bitmap_port_test m (p - m.first_port) = true →
      m.last_port - m.first_port < m.members.length →
      (bitmap_port_uadt m IpsetAdt.add ⟨lo, some hi, none⟩ false).1 =
          -IPSET_ERR_EXIST ∧
      (∀ id, bitmap_port_test
          (bitmap_port_uadt m IpsetAdt.add ⟨lo, some hi, none⟩ false).2 id
        = (bitmap_port_test m id ||
            decide (lo ≤ id + m.first_port ∧ id + m.first_port < p)))) := by
  refine ⟨?_, ?_, ?_⟩
  · rw [uadt_range_eq m adt lo hi true hadt, if_neg (by omega),
      adt_fold_swallow _ (bitmap_port_adt_step_code adt) _ m]
  · intro k1 k2
    rw [timeout_uadt_range_eq mt adt lo hi topt true now hadt,
      if_neg (by omega),
      adt_fold_swallow _
        (bitmap_port_timeout_adt_step_code adt (topt.getD mt.timeout) now)
        _ mt]
  · intro habs hlop hphi htest hlen
    rw [uadt_range_eq m IpsetAdt.add lo hi false (by decide),
      if_neg (by omega), show min lo hi = lo from by omega,
      show max lo hi = hi from by omega]
    have hsplit : List.range' lo (hi + 1 - lo) =
        List.range' lo (p - lo) ++ (p :: List.range' (p + 1) (hi - p)) := by
      have ha := List.range'_append lo (p - lo) (hi + 1 - p) 1
      rw [show hi + 1 - lo = (hi + 1 - p) + (p - lo) from by omega, ← ha,
        show lo + 1 * (p - lo) = p from by omega,
        show hi + 1 - p = (hi - p) + 1 from by omega, List.range'_succ]
    rw [hsplit]
    have hps1 := add_fold_absent false (List.range' lo (p - lo)) m
      (List.pairwise_lt_range' lo (p - lo))
      (fun q hq => by
        rcases List.mem_range'_1.mp hq with ⟨hh1, hh2⟩
        omega)
      (fun q hq => by
        rcases List.mem_range'_1.mp hq with ⟨hh1, hh2⟩
        have hql : q ≤ m.last_port := by omega
        have := Nat.sub_le_sub_right hql m.first_port
        omega)
      (fun q hq => by
        rcases List.mem_range'_1.mp hq with ⟨hh1, hh2⟩
        exact habs q hh1 (by omega))
    have hfold1 : adt_fold (bitmap_port_adt_step IpsetAdt.add) false m
        (List.range' lo (p - lo)) =
        (0, (adt_fold (bitmap_port_adt_step IpsetAdt.add) false m
              (List.range' lo (p - lo))).2) :=
      Prod.ext hps1.1 rfl
    rw [adt_fold_append_ok _ false _ _ m _ hfold1, adt_fold_cons]
    have hfp := hps1.2.1
    have htest1 : bitmap_port_test
        (adt_fold (bitmap_port_adt_step IpsetAdt.add) false m
          (List.range' lo (p - lo))).2
        (p - (adt_fold (bitmap_port_adt_step IpsetAdt.add) false m
          (List.range' lo (p - lo))).2.first_port) = true := by
      rw [hfp, hps1.2.2.2.2 (p - m.first_port), htest, Bool.true_or]
    have hstep := bitmap_port_adt_step_add_present
      (adt_fold (bitmap_port_adt_step IpsetAdt.add) false m
        (List.range' lo (p - lo))).2 p htest1
    have hEne : (-IPSET_ERR_EXIST : Int) ≠ 0 := by decide
    rw [hstep, if_pos ⟨hEne, by simp [ip_set_eexist]⟩]
    refine ⟨rfl, ?_⟩
    intro id
    show bitmap_port_test
        (adt_fold (bitmap_port_adt_step IpsetAdt.add) false m
          (List.range' lo (p - lo))).2 id = _
    rw [hps1.2.2.2.2 id]
    congr 1
    by_cases hprop : lo ≤ id + m.first_port ∧ id + m.first_port < p
    · rw [decide_eq_true hprop, List.any_eq_true]
      refine ⟨id + m.first_port,
        List.mem_range'_1.mpr ⟨hprop.1, by omega⟩, ?_⟩
      simp [Nat.add_sub_cancel]
    · rw [decide_eq_false hprop, ← Bool.not_eq_true, List.any_eq_true]
      rintro ⟨q, hqmem, hq⟩
      rcases List.mem_range'_1.mp hqmem with ⟨hh1, hh2⟩
      have hqid : q - m.first_port = id := by simpa using hq
      exact hprop ⟨by omega, by omega⟩

/-- Witness for C4: on the store over `[0,2]` with only port 1 present,
the tolerant range add of `[0,2]` succeeds, while the intolerant one
aborts at port 1 with `IPSET_ERR_EXIST`, keeps the freshly inserted
port 0 and never touches port 2. -/
theorem claim_C4_partial_failure_witness :
    (bitmap_port_uadt ⟨[false, true, false], 0, 2⟩ IpsetAdt.add
        ⟨0, some 2, none⟩ true).1 = 0 ∧
    (bitmap_port_uadt ⟨[false, true, false], 0, 2⟩ IpsetAdt.add
        ⟨0, some 2, none⟩ false).1 = -IPSET_ERR_EXIST ∧
    bitmap_port_test (bitmap_port_uadt ⟨[false, true, false], 0, 2⟩
        IpsetAdt.add ⟨0, some 2, none⟩ false).2 0 = true ∧
    bitmap_port_test (bitmap_port_uadt ⟨[false, true, false], 0, 2⟩
        IpsetAdt.add ⟨0, some 2, none⟩ false).2 2 = false := by
  have h := claim_C4_partial_failure ⟨[false, true, false], 0, 2⟩
    ⟨[0, 0, 0], 0, 2, 3⟩ IpsetAdt.add 0 2 1 none 0 (by decide) (by decide)
    (by decide) (by decide)
  have h3 := h.2.2
    (fun q hq1 hq2 => by
      have hq0 : q = 0 := by omega
      subst hq0
      decide)
    (by decide) (by decide) (by decide) (by decide)
  refine ⟨h.1, h3.1, ?_, ?_⟩
  · rw [h3.2 0]
    decide
  · rw [h3.2 2]
    decide
